import Mathlib

/-!
Verification of the Five9 agent-state poller (src/app.py) against its
natural-language specification.

The development shallowly embeds the snapshot pipeline:
* the XML response model and `five9_get_agent_states` (parse step),
* the timestamp normalization block of `write_to_supabase` (Python
  `strptime`/`timedelta`/`strftime` over the proleptic Gregorian calendar),
* the row projection loop of `write_to_supabase`,
* the `/poll` orchestrator together with an action trace recording which
  external calls are attempted, and
* the retention purge request built by `poll`.

External transports (HTTP, the Five9 service, Supabase) are modelled as an
environment supplying each call's response; Python exceptions that the code
does not catch are modelled as explicit `raised`/`Except.error` results.
-/

namespace Five9Poller

instance {ε α : Type} [DecidableEq ε] [DecidableEq α] : DecidableEq (Except ε α) := fun a b =>
  match a, b with
  | .error e, .error f =>
    if h : e = f then .isTrue (by rw [h]) else .isFalse (by simp [h])
  | .ok x, .ok y =>
    if h : x = y then .isTrue (by rw [h]) else .isFalse (by simp [h])
  | .error _, .ok _ => .isFalse (by simp)
  | .ok _, .error _ => .isFalse (by simp)

/-! ## XML document model

`xml.etree.ElementTree` view of a parsed document: an element has a tag, an
optional text payload, and a list of child elements.  `Response.xml = none`
models a body on which `ET.fromstring` raises `ParseError`. -/

inductive Xml where
  | elem (tag : String) (text : Option String) (children : List Xml)

def Xml.tag : Xml → String
  | .elem t _ _ => t

def Xml.text : Xml → Option String
  | .elem _ t _ => t

def Xml.children : Xml → List Xml
  | .elem _ _ cs => cs

mutual

/-- All proper descendants of an element in document (preorder) order, the
element itself excluded — the enumeration order of `ElementTree`'s `.//`
descendant axis. -/
def Xml.descendants : Xml → List Xml
  | .elem _ _ cs => Xml.descList cs
termination_by structural x => x

def Xml.descList : List Xml → List Xml
  | [] => []
  | c :: cs => (c :: Xml.descendants c) ++ Xml.descList cs
termination_by structural l => l

end

/-- Chars after the first closing brace, `none` when there is none. -/
def afterBrace : List Char → Option (List Char)
  | [] => none
  | c :: cs => if c = '}' then some cs else afterBrace cs

/-- Python `tag.split("}", 1)[1]` when `"}" in tag` (everything after the
first closing brace), the tag itself otherwise. -/
def stripTag (t : String) : String :=
  match afterBrace t.data with
  | none => t
  | some l => String.mk l

mutual

/-- The namespace-stripping pass of `five9_get_agent_states` (app.py lines
75-77): every element's tag loses its namespace qualifier. -/
def stripNS : Xml → Xml
  | .elem t tx cs => .elem (stripTag t) tx (stripNSList cs)
termination_by structural x => x

def stripNSList : List Xml → List Xml
  | [] => []
  | c :: cs => stripNS c :: stripNSList cs
termination_by structural l => l

end

/-- Descendants (any depth, element itself excluded) with the given tag, in
document order: `root.findall(".//tag")`. -/
def descAll (x : Xml) (tag : String) : List Xml :=
  (Xml.descendants x).filter (fun e => e.tag == tag)

/-- Direct children with the given tag, in order: `node.findall("tag")`. -/
def childAll (x : Xml) (tag : String) : List Xml :=
  x.children.filter (fun e => e.tag == tag)

/-- Python `elem.text or ""`: an absent (None) text — and an empty text —
become the empty string. -/
def textOr (e : Xml) : String :=
  match e.text with
  | none => ""
  | some s => s

/-- The texts of the `data` children of a `values` node, in order:
`[d.text or "" for d in node.findall("data")]`. -/
def dataTexts (e : Xml) : List String :=
  (childAll e "data").map textOr

/-- `root.find(".//columns/values")`: first `values` child of a `columns`
descendant, scanning `columns` descendants in document order. -/
def findColumnsValues (root : Xml) : Option Xml :=
  ((descAll root "columns").flatMap (fun c => childAll c "values")).head?

/-! ## Raw agent records -/

/-- A RawStatRecord.  `dict(zip(columns, values))` is kept as the underlying
association list produced by `zip`; lookups mirror Python `dict` semantics
(the last duplicate key wins). -/
abbrev Agent := List (String × String)

/-- `dict(zip(columns, values))`: positional zip, truncating to the shorter
sequence (app.py line 92). -/
def zipA (cols vals : List String) : Agent :=
  List.zip cols vals

/-- Python `a.get(k)`: `none` when the key is absent; for a dict built from
`zip`, the last binding of a duplicated key is the one retained. -/
def agetOpt (a : Agent) (k : String) : Option String :=
  (a.reverse.find? (fun p => p.1 == k)).map (fun p => p.2)

/-- Python `a.get(k, d)`. -/
def dgetD (a : Agent) (k d : String) : String :=
  (agetOpt a k).getD d

/-! ## The fetch-and-parse step -/

/-- One HTTP response: transport status, raw body text, and the result of
XML-parsing the body (`none` means `ET.fromstring` raises `ParseError`). -/
structure Response where
  status : Nat
  text : String
  xml : Option Xml

/-- Outcome of `five9_get_agent_states`: either one of the two tuple shapes
the Python function returns — `(None, err)` or `(agents, None)` — or an
uncaught exception escaping the function. -/
inductive Fetched where
  | raised (e : String)
  | err (msg : String)
  | ok (agents : List Agent)
  deriving Repr, DecidableEq

def parseErrorMsg : String := "xml.etree.ElementTree.ParseError"

/-- app.py lines 64-95.  Non-200 status yields the `(None, errmsg)` tuple
with the body excerpt truncated to 500 characters; a malformed body makes
`ET.fromstring` raise (uncaught); otherwise namespaces are stripped, the
column names are located (else the `"No columns found"` tuple), and each
`rows` descendant owning a `values` child contributes one zipped record. -/
def five9_get_agent_states (resp : Response) : Fetched :=
  if resp.status ≠ 200 then
    .err ("Five9 returned " ++ toString resp.status ++ ": "
      ++ String.mk (resp.text.data.take 500))
  else
    match resp.xml with
    | none => .raised parseErrorMsg
    | some root0 =>
      let root := stripNS root0
      match findColumnsValues root with
      | none => .err "No columns found in response"
      | some cn =>
        let columns := dataTexts cn
        let agents := (descAll root "rows").foldl
          (fun acc r =>
            match (childAll r "values").head? with
            | none => acc
            | some vn => acc ++ [zipA columns (dataTexts vn)]) []
        .ok agents

/-! ## Naive datetimes (Python `datetime` without tzinfo)

The proleptic Gregorian calendar over years 1-9999, exactly the range of
Python's `datetime`.  `toSecs` is the second count from 0001-01-01 00:00:00
(`datetime.min`); `fromSecs` is its inverse on the representable range and
models the ordinal-to-civil conversion inside `datetime` arithmetic. -/

structure Dt where
  year : Nat
  month : Nat
  day : Nat
  hour : Nat
  minute : Nat
  second : Nat
  deriving Repr, DecidableEq

/-- Gregorian leap-year rule (as in CPython's `_is_leap`). -/
def isLeap (y : Nat) : Prop :=
  (y % 4 = 0 ∧ ¬ y % 100 = 0) ∨ y % 400 = 0

instance : DecidablePred isLeap := fun y => by unfold isLeap; infer_instance

def leapDay (y : Nat) : Nat := if isLeap y then 1 else 0

/-- CPython `_days_in_month`. -/
def daysInMonth (y m : Nat) : Nat :=
  match m with
  | 2 => 28 + leapDay y
  | 4 | 6 | 9 | 11 => 30
  | _ => 31

/-- Days in year `y` strictly before month `m` (CPython `_days_before_month`);
`m = 13` gives the full year length. -/
def daysBeforeMonth (y m : Nat) : Nat :=
  match m with
  | 0 => 0
  | 1 => 0
  | 2 => 31
  | 3 => 59 + leapDay y
  | 4 => 90 + leapDay y
  | 5 => 120 + leapDay y
  | 6 => 151 + leapDay y
  | 7 => 181 + leapDay y
  | 8 => 212 + leapDay y
  | 9 => 243 + leapDay y
  | 10 => 273 + leapDay y
  | 11 => 304 + leapDay y
  | 12 => 334 + leapDay y
  | _ => 365 + leapDay y

/-- Days from 0001-01-01 to the first day of year `y` (CPython
`_days_before_year`). -/
def daysBeforeYear (y : Nat) : Nat :=
  365 * (y - 1) + (y - 1) / 4 + (y - 1) / 400 - (y - 1) / 100

/-- Seconds since 0001-01-01 00:00:00. -/
def toSecs (t : Dt) : Nat :=
  ((daysBeforeYear t.year + daysBeforeMonth t.year t.month + (t.day - 1)) * 24
      + t.hour) * 3600
    + t.minute * 60 + t.second

/-- The validity check of the `datetime` constructor: year within
`MINYEAR..MAXYEAR` and the other fields in range (this is also what makes
`strptime` raise `ValueError` on a day that overflows its month). -/
def dtValid (t : Dt) : Prop :=
  1 ≤ t.year ∧ t.year ≤ 9999 ∧ 1 ≤ t.month ∧ t.month ≤ 12 ∧
  1 ≤ t.day ∧ t.day ≤ daysInMonth t.year t.month ∧
  t.hour ≤ 23 ∧ t.minute ≤ 59 ∧ t.second ≤ 59

instance (t : Dt) : Decidable (dtValid t) := by unfold dtValid; infer_instance

/-- `toSecs` of `datetime.max` (at second resolution): the largest second
count a `datetime` result may reach before the arithmetic raises
`OverflowError`. -/
def maxSecs : Nat := toSecs ⟨9999, 12, 31, 23, 59, 59⟩

/-- Largest century-start year `100·c + 1` with `c < k` whose day count is
at most `days` (1 when none qualifies). -/
def findYearC (days : Nat) : Nat → Nat
  | 0 => 1
  | c + 1 => if daysBeforeYear (100 * c + 1) ≤ days then 100 * c + 1 else findYearC days c

/-- Largest year in `[base, base + k]` whose day count is at most `days`,
assuming the bound already holds at `base`. -/
def findYearF (days base : Nat) : Nat → Nat
  | 0 => base
  | k + 1 =>
    if daysBeforeYear (base + (k + 1)) ≤ days then base + (k + 1)
    else findYearF days base k

/-- Year of a day count: century scan then year scan (kept shallow so the
function evaluates by reduction). -/
def findYear (days : Nat) : Nat := findYearF days (findYearC days 100) 99

/-- Largest month `m ≤ k` with `daysBeforeMonth y m ≤ doy` (1 if none). -/
def findMonthAux (y doy : Nat) : Nat → Nat
  | 0 => 1
  | k + 1 => if daysBeforeMonth y (k + 1) ≤ doy then k + 1 else findMonthAux y doy k

def findMonth (y doy : Nat) : Nat := findMonthAux y doy 12

/-- Civil datetime of a second count (inverse of `toSecs` on the
representable range). -/
def fromSecs (n : Nat) : Dt :=
  let days := n / 86400
  let rem := n % 86400
  let y := findYear days
  let doy := days - daysBeforeYear y
  let m := findMonth y doy
  ⟨y, m, doy - daysBeforeMonth y m + 1, rem / 3600, rem % 3600 / 60, rem % 60⟩

/-! ## `strptime(s, "%Y-%m-%d %H:%M:%S")`

CPython's `_strptime` compiles the format to the regex
`(?P<Y>\d\d\d\d)-(?P<m>1[0-2]|0[1-9]|[1-9])-(?P<d>3[0-1]|[1-2]\d|0[1-9]|[1-9]| [1-9])\s+(?P<H>2[0-3]|[0-1]\d|\d):(?P<M>[0-5]\d|\d):(?P<S>6[0-1]|[0-5]\d|\d)`
anchored at the start, and rejects the input when unconverted data remains.
So apart from the year the matcher is *lenient*: fields may drop their
leading zero and the literal space matches any whitespace run.  The
backtracking alternations below are resolved deterministically: whenever a
long branch is taken, the discarded shorter branch is always followed by a
separator mismatch, so committing is equivalent.  (`\s` is modelled by its
ASCII cases.) -/

def digitVal (c : Char) : Nat := c.toNat - 48

/-- `%Y`: exactly four digits. -/
def parseYear (l : List Char) : Option (Nat × List Char) :=
  match l with
  | a :: b :: c :: d :: r =>
    if a.isDigit ∧ b.isDigit ∧ c.isDigit ∧ d.isDigit then
      some (((digitVal a * 10 + digitVal b) * 10 + digitVal c) * 10 + digitVal d, r)
    else none
  | _ => none

def expectChar (c : Char) : List Char → Option (List Char)
  | [] => none
  | x :: r => if x = c then some r else none

/-- `%m`: `1[0-2]|0[1-9]|[1-9]`. -/
def parseMonth : List Char → Option (Nat × List Char)
  | [] => none
  | c :: cs =>
    if c = '0' then
      match cs with
      | [] => none
      | d :: r => if '1' ≤ d ∧ d ≤ '9' then some (digitVal d, r) else none
    else if c = '1' then
      match cs with
      | [] => some (1, [])
      | d :: r => if '0' ≤ d ∧ d ≤ '2' then some (10 + digitVal d, r) else some (1, d :: r)
    else if '2' ≤ c ∧ c ≤ '9' then some (digitVal c, cs)
    else none

/-- `%d`: `3[0-1]|[1-2]\d|0[1-9]|[1-9]| [1-9]` (the last branch: a space
followed by a nonzero digit). -/
def parseDay : List Char → Option (Nat × List Char)
  | [] => none
  | c :: cs =>
    if c = '3' then
      match cs with
      | [] => some (3, [])
      | d :: r => if d = '0' ∨ d = '1' then some (30 + digitVal d, r) else some (3, d :: r)
    else if c = '1' ∨ c = '2' then
      match cs with
      | [] => some (digitVal c, [])
      | d :: r =>
        if d.isDigit then some (digitVal c * 10 + digitVal d, r)
        else some (digitVal c, d :: r)
    else if c = '0' then
      match cs with
      | [] => none
      | d :: r => if '1' ≤ d ∧ d ≤ '9' then some (digitVal d, r) else none
    else if '4' ≤ c ∧ c ≤ '9' then some (digitVal c, cs)
    else if c = ' ' then
      match cs with
      | [] => none
      | d :: r => if '1' ≤ d ∧ d ≤ '9' then some (digitVal d, r) else none
    else none

/-- `%H`: `2[0-3]|[0-1]\d|\d`. -/
def parseHour : List Char → Option (Nat × List Char)
  | [] => none
  | c :: cs =>
    if c = '2' then
      match cs with
      | [] => some (2, [])
      | d :: r => if '0' ≤ d ∧ d ≤ '3' then some (20 + digitVal d, r) else some (2, d :: r)
    else if c = '0' ∨ c = '1' then
      match cs with
      | [] => some (digitVal c, [])
      | d :: r =>
        if d.isDigit then some (digitVal c * 10 + digitVal d, r)
        else some (digitVal c, d :: r)
    else if '3' ≤ c ∧ c ≤ '9' then some (digitVal c, cs)
    else none

/-- `%M`: `[0-5]\d|\d`. -/
def parseMin : List Char → Option (Nat × List Char)
  | [] => none
  | c :: cs =>
    if '0' ≤ c ∧ c ≤ '5' then
      match cs with
      | [] => some (digitVal c, [])
      | d :: r =>
        if d.isDigit then some (digitVal c * 10 + digitVal d, r)
        else some (digitVal c, d :: r)
    else if '6' ≤ c ∧ c ≤ '9' then some (digitVal c, cs)
    else none

/-- `%S`: `6[0-1]|[0-5]\d|\d` (a matched leap second 60/61 is then rejected
by the `datetime` constructor). -/
def parseSec : List Char → Option (Nat × List Char)
  | [] => none
  | c :: cs =>
    if c = '6' then
      match cs with
      | [] => some (6, [])
      | d :: r => if d = '0' ∨ d = '1' then some (60 + digitVal d, r) else some (6, d :: r)
    else if '0' ≤ c ∧ c ≤ '5' then
      match cs with
      | [] => some (digitVal c, [])
      | d :: r =>
        if d.isDigit then some (digitVal c * 10 + digitVal d, r)
        else some (digitVal c, d :: r)
    else if '7' ≤ c ∧ c ≤ '9' then some (digitVal c, cs)
    else none

def isSpaceChar (c : Char) : Bool :=
  c == ' ' || c == '\t' || c == '\n' || c == '\r' || c == '\x0b' || c == '\x0c'

/-- A literal space in the format matches `\s+`. -/
def parseWs : List Char → Option (List Char)
  | [] => none
  | c :: cs => if isSpaceChar c then some (cs.dropWhile isSpaceChar) else none

/-- `datetime.strptime(s, "%Y-%m-%d %H:%M:%S")`: `none` models the
`ValueError` the caller catches. -/
def strptimeYmdHMS (s : String) : Option Dt := do
  let (y, l1) ← parseYear s.data
  let l2 ← expectChar '-' l1
  let (m, l3) ← parseMonth l2
  let l4 ← expectChar '-' l3
  let (d, l5) ← parseDay l4
  let l6 ← parseWs l5
  let (h, l7) ← parseHour l6
  let l8 ← expectChar ':' l7
  let (mi, l9) ← parseMin l8
  let l10 ← expectChar ':' l9
  let (sec, l11) ← parseSec l10
  if l11 = [] ∧ dtValid ⟨y, m, d, h, mi, sec⟩ then some ⟨y, m, d, h, mi, sec⟩
  else none

/-! ## `strftime("%Y-%m-%d %H:%M:%S")` and the canonical lexical form -/

def digc (n : Nat) : Char :=
  match n with
  | 0 => '0' | 1 => '1' | 2 => '2' | 3 => '3' | 4 => '4'
  | 5 => '5' | 6 => '6' | 7 => '7' | 8 => '8' | _ => '9'

def pad2c (n : Nat) : List Char := [digc (n / 10), digc (n % 10)]

def pad4c (n : Nat) : List Char :=
  [digc (n / 1000), digc (n / 100 % 10), digc (n / 10 % 10), digc (n % 10)]

/-- glibc `strftime` prints `%Y` as a plain decimal with no zero padding
(the deployment platform); for years ≥ 1000 this is the four-digit form. -/
def yearChars (y : Nat) : List Char :=
  if 1000 ≤ y then pad4c y else Nat.toDigits 10 y

def fmtChars (yc : List Char) (t : Dt) : List Char :=
  yc ++ ('-' :: pad2c t.month) ++ ('-' :: pad2c t.day) ++ (' ' :: pad2c t.hour)
    ++ (':' :: pad2c t.minute) ++ (':' :: pad2c t.second)

/-- `utc_dt.strftime("%Y-%m-%d %H:%M:%S")` on the deployment platform. -/
def strftimeYmdHMS (t : Dt) : String := String.mk (fmtChars (yearChars t.year) t)

/-- The spec's canonical lexical form `YYYY-MM-DD HH:MM:SS` of a datetime
(year zero-padded to four digits). -/
def canonicalFmt (t : Dt) : String := String.mk (fmtChars (pad4c t.year) t)

/-- Decides whether a string is lexically of the form
`YYYY-MM-DD HH:MM:SS` (four digits, dash, two digits, dash, two digits,
space, and three colon-separated two-digit groups). -/
def isCanonicalTs (s : String) : Bool :=
  match s.data with
  | [y1, y2, y3, y4, s1, m1, m2, s2, d1, d2, s3, h1, h2, s4, n1, n2, s5, c1, c2] =>
    y1.isDigit && y2.isDigit && y3.isDigit && y4.isDigit && s1 == '-' && m1.isDigit
      && m2.isDigit && s2 == '-' && d1.isDigit && d2.isDigit && s3 == ' '
      && h1.isDigit && h2.isDigit && s4 == ':' && n1.isDigit && n2.isDigit
      && s5 == ':' && c1.isDigit && c2.isDigit
  | _ => false

/-! ## The timestamp-normalization block (app.py lines 108-116)

Extracted as the two-input TimeNormalizer of the spec; `write_to_supabase`
instantiates the offset with `FIVE9_TZ_OFFSET_HOURS`.  The `try` block
catches only `ValueError` (a failed parse); when the shifted result leaves
the `datetime` range, `naive - timedelta(hours=offset)` raises an uncaught
`OverflowError`, modelled as `Except.error`. -/

def overflowMsg : String := "OverflowError: result out of range"

def normalize (s : String) (offsetHours : Int) : Except String String :=
  if s = "" then .ok ""
  else
    match strptimeYmdHMS s with
    | none => .ok s
    | some t =>
      let n : Int := (toSecs t : Int) - 3600 * offsetHours
      if 0 ≤ n ∧ n ≤ (maxSecs : Int) then .ok (strftimeYmdHMS (fromSecs n.toNat))
      else .error overflowMsg

/-! ## Row projection (app.py lines 100-133) -/

/-- app.py line 29: the fixed Pacific offset. -/
def FIVE9_TZ_OFFSET_HOURS : Int := -8

/-- One PersistedSnapshotRow: the exact keys of the dict built at app.py
lines 118-130. -/
structure Row where
  snapshot_ts : String
  username : String
  full_name : String
  state : String
  reason_code : String
  state_since : String
  state_since_utc : String
  state_duration : String
  campaign_name : String
  call_type : String
  media_availability : String
  deriving Repr, DecidableEq

/-- Whether the loop skips the record: `a.get("State") == "Logged Out"`
(`a.get` without default returns `None` for a missing key, which compares
unequal to the sentinel, so such records are retained). -/
def isLoggedOutB (a : Agent) : Bool :=
  agetOpt a "State" == some "Logged Out"

/-- The body of the row-building loop for one retained record: field-name
lookups with empty-string defaults, the raw `State Since` preserved
verbatim, and its normalization (which can raise, propagated as
`Except.error`). -/
def rowOf (ts : String) (a : Agent) : Except String Row :=
  let raw := dgetD a "State Since" ""
  match normalize raw FIVE9_TZ_OFFSET_HOURS with
  | .error e => .error e
  | .ok utc =>
    .ok
      { snapshot_ts := ts
        username := dgetD a "Username" ""
        full_name := dgetD a "Full Name" ""
        state := dgetD a "State" ""
        reason_code := dgetD a "Reason Code" ""
        state_since := raw
        state_since_utc := utc
        state_duration := dgetD a "State Duration" ""
        campaign_name := dgetD a "Campaign Name" ""
        call_type := dgetD a "Call Type" ""
        media_availability := dgetD a "Media Availability" "" }

/-- The full row-building loop of `write_to_supabase`: logged-out records
are skipped, the rest are projected in order; the first uncaught exception
aborts the loop. -/
def buildRows (ts : String) : List Agent → Except String (List Row)
  | [] => .ok []
  | a :: rest =>
    if isLoggedOutB a then buildRows ts rest
    else
      match rowOf ts a with
      | .error e => .error e
      | .ok r =>
        match buildRows ts rest with
        | .error e => .error e
        | .ok rs => .ok (r :: rs)

/-! ## Orchestration (app.py lines 161-204)

External calls are abstracted by an environment fixing each response.  The
action trace records which outward calls the invocation actually performs:
the session-set POST, the statistics POST, the Supabase insert POST (with
the rows it carries — only issued when at least one row was built), and the
retention DELETE (with the cutoff it carries). -/

inductive Action where
  | sessionSet
  | fetch
  | write (rows : List Row)
  | purge (cutoff : Int)
  deriving Repr, DecidableEq

/-- app.py lines 100-150: build the rows; an empty batch returns `(0, None)`
without any POST; a non-(200|201) insert status returns the
`(0, "Supabase error ...")` tuple with the body excerpt truncated. -/
def write_to_supabase (writeStatus : Nat) (writeBody : String)
    (agents : List Agent) (ts : String) :
    Except String ((Nat × Option String) × List Action) :=
  match buildRows ts agents with
  | .error e => .error e
  | .ok rows =>
    if rows.isEmpty then .ok ((0, none), [])
    else if writeStatus ≠ 200 ∧ writeStatus ≠ 201 then
      .ok ((0, some ("Supabase error " ++ toString writeStatus ++ ": "
          ++ String.mk (writeBody.data.take 500))), [.write rows])
    else .ok ((rows.length, none), [.write rows])

/-- The environment of one `/poll` invocation: the logical timestamp
captured at line 165 and the responses of the four possible external calls.
`delCount` is `len(del_resp.json())`, read only on a 200 delete status;
`delText` is the delete response's body text, which the code never reads. -/
structure Env where
  snapshot_ts : String
  sessionStatus : Nat
  statsResp : Response
  writeStatus : Nat
  writeBody : String
  purgeNow : Int
  delStatus : Nat
  delCount : Nat
  delText : String

/-- The value `/poll` produces: the 200 JSON payload (`ok` true plus the
counts and timestamp), the 500 JSON payload (`ok` false plus one error
string), or an exception escaping the handler uncaught. -/
inductive Outcome where
  | http500 (error : String)
  | success (agents_total agents_written purged : Nat) (snapshot_ts : String)
  | raised (e : String)
  deriving Repr, DecidableEq

/-- app.py lines 54-61: `resp.status_code == 200`. -/
def five9_set_session (env : Env) : Bool := env.sessionStatus == 200

/-- app.py line 183: `(now - timedelta(hours=48))`, in seconds.  ISO-8601
UTC timestamps of fixed precision compare lexicographically exactly as
their second counts compare, so timestamps are modelled as `Int` seconds. -/
def purgeCutoff (now : Int) : Int := now - 48 * 3600

/-- The `/poll` handler, app.py lines 161-204, with its action trace. -/
def poll (env : Env) : Outcome × List Action :=
  if ¬ five9_set_session env then
    (.http500 "Failed to set Five9 session", [.sessionSet])
  else
    match five9_get_agent_states env.statsResp with
    | .raised e => (.raised e, [.sessionSet, .fetch])
    | .err e => (.http500 e, [.sessionSet, .fetch])
    | .ok agents =>
      match write_to_supabase env.writeStatus env.writeBody agents env.snapshot_ts with
      | .error e => (.raised e, [.sessionSet, .fetch])
      | .ok ((_, some e), acts) => (.http500 e, ([.sessionSet, .fetch] ++ acts))
      | .ok ((count, none), acts) =>
        let purged := if env.delStatus == 200 then env.delCount else 0
        (.success agents.length count purged env.snapshot_ts,
          (([.sessionSet, .fetch] ++ acts) ++ [.purge (purgeCutoff env.purgeNow)]))

/-! ## The retention store operation

Modelled from the spec: the durable store itself is an external
collaborator (src/ only builds the DELETE request); its documented
delete-by-timestamp-predicate operation `snapshot_ts=lt.{cutoff}` removes
exactly the rows with `snapshot_ts` strictly below the cutoff. -/

def purgeDeleted (store : List Int) (cutoff : Int) : List Int :=
  store.filter (fun ts => decide (ts < cutoff))

def purgeKept (store : List Int) (cutoff : Int) : List Int :=
  store.filter (fun ts => ! decide (ts < cutoff))

/-! ## Sample fixtures for concrete witnesses -/

/-- A namespaced response document with two data rows. -/
def sampleDoc : Xml :=
  .elem "{ns}Envelope" none
    [.elem "{ns}Body" none
      [.elem "{ns}columns" none
        [.elem "{ns}values" none
          [.elem "{ns}data" (some "Username") [], .elem "{ns}data" (some "State") []]],
       .elem "{ns}rows" none
        [.elem "{ns}values" none
          [.elem "{ns}data" (some "alice") [], .elem "{ns}data" (some "Ready") []]],
       .elem "{ns}rows" none
        [.elem "{ns}values" none
          [.elem "{ns}data" (some "bob") [], .elem "{ns}data" (some "Logged Out") []]]]]

/-- The stripped `columns/values` node of `sampleDoc`. -/
def sampleCn : Xml :=
  .elem "values" none [.elem "data" (some "Username") [], .elem "data" (some "State") []]

def sampleResp : Response := ⟨200, "<soap>", some sampleDoc⟩

/-- A document with rows but no columns declaration. -/
def docNoCols : Xml :=
  .elem "{ns}Envelope" none
    [.elem "{ns}rows" none
      [.elem "{ns}values" none [.elem "{ns}data" (some "alice") []]]]

/-- A document with a valid columns declaration and zero row elements. -/
def docNoRows : Xml :=
  .elem "{ns}Envelope" none
    [.elem "{ns}columns" none
      [.elem "{ns}values" none [.elem "{ns}data" (some "Username") []]]]

/-- An all-steps-succeed environment whose retention delete call fails with
status 503. -/
def sampleEnv : Env :=
  { snapshot_ts := "2024-06-01T12:00:00+00:00"
    sessionStatus := 200
    statsResp := sampleResp
    writeStatus := 201
    writeBody := ""
    purgeNow := 1717243200
    delStatus := 503
    delCount := 7
    delText := "service unavailable" }

/-- An environment whose statistics response body is not well-formed XML. -/
def envBadXml : Env := { sampleEnv with statsResp := ⟨200, "<bad", none⟩ }

/-- The spec's description of the parse result (spec 4.2 steps 4-6): the
`rows` descendants in document order, rows lacking a `values` child skipped,
each remaining row zipped positionally against the column names. -/
def specRowRecords (root : Xml) (columns : List String) : List Agent :=
  (descAll root "rows").filterMap
    (fun r => ((childAll r "values").head?).map (fun vn => zipA columns (dataTexts vn)))

/-- The single retained row of `sampleAgents` under `sampleEnv`'s
timestamp. -/
def aliceRow : Row :=
  { snapshot_ts := "2024-06-01T12:00:00+00:00"
    username := "alice"
    full_name := ""
    state := "Ready"
    reason_code := ""
    state_since := ""
    state_since_utc := ""
    state_duration := ""
    campaign_name := ""
    call_type := ""
    media_availability := "" }

def sampleAgents : List Agent :=
  [[("Username", "alice"), ("State", "Ready")],
   [("Username", "bob"), ("State", "Logged Out")]]

/-- `toSecs` of 1000-01-01 00:00:00: above this bound `strftime`'s `%Y` is
the canonical four-digit year on every platform. -/
def lowSecs : Nat := toSecs ⟨1000, 1, 1, 0, 0, 0⟩

/-! ## List-level lemmas about the parse loop and zipping -/

lemma foldl_rows (columns : List String) :
    ∀ (l : List Xml) (acc : List Agent),
      l.foldl (fun acc r =>
        match (childAll r "values").head? with
        | none => acc
        | some vn => acc ++ [zipA columns (dataTexts vn)]) acc
      = acc ++ l.filterMap
          (fun r => ((childAll r "values").head?).map (fun vn => zipA columns (dataTexts vn)))
  | [], acc => by simp
  | r :: l, acc => by
    cases h : (childAll r "values").head? <;>
      simp [List.foldl_cons, h, foldl_rows columns l]

lemma map_fst_zipA : ∀ (cols vals : List String), vals.length ≤ cols.length →
    (zipA cols vals).map Prod.fst = cols.take vals.length
  | _, [], _ => by simp [zipA]
  | [], _ :: _, h => by simp at h
  | c :: cols, v :: vals, h => by
    simpa [zipA] using map_fst_zipA cols vals (by simpa using h)

lemma zipA_take : ∀ (cols vals : List String), zipA cols vals = zipA cols (vals.take cols.length)
  | [], _ => by simp [zipA]
  | _ :: _, [] => by simp [zipA]
  | c :: cols, v :: vals => by
    simpa [zipA] using zipA_take cols vals

/-! ## C4 -/

/-- C4: on a well-formed response with a columns declaration, `parse`
returns the row records in document order — one zipped record per `rows`
element owning a `values` child (rows lacking one are skipped, not an
error) — and a row with fewer values than columns yields exactly the
matched column-name sequence (a take of the declared columns). -/
theorem c4_parse_rows_zip :
    (∀ resp root cn, resp.status = 200 → resp.xml = some root →
      findColumnsValues (stripNS root) = some cn →
      five9_get_agent_states resp = .ok (specRowRecords (stripNS root) (dataTexts cn)))
    ∧ (∀ cols vals : List String, vals.length ≤ cols.length →
      (zipA cols vals).map Prod.fst = cols.take vals.length) := by
  constructor
  · intro resp root cn h200 hxml hcn
    simp [five9_get_agent_states, h200, hxml, hcn, specRowRecords, foldl_rows]
  · exact map_fst_zipA

/-- Witness for C4 at the sample document: two records in document order,
zipped by position, and a one-value row yields only the first column. -/
theorem c4_witness :
    five9_get_agent_states sampleResp
      = .ok [[("Username", "alice"), ("State", "Ready")],
             [("Username", "bob"), ("State", "Logged Out")]]
    ∧ (zipA ["Username", "State"] ["alice"]).map Prod.fst = ["Username"] := by
  constructor
  · have h := c4_parse_rows_zip.1 sampleResp sampleDoc sampleCn rfl rfl rfl
    rw [h]; rfl
  · exact c4_parse_rows_zip.2 ["Username", "State"] ["alice"] (by simp)

/-! ## C5 -/

/-- C5: a well-formed response without a columns declaration parses to the
`SchemaError` tuple regardless of any rows; a well-formed response with
columns but zero `rows` elements parses to the success tuple with an empty
record list. -/
theorem c5_no_columns_vs_no_rows :
    (∀ resp root, resp.status = 200 → resp.xml = some root →
      findColumnsValues (stripNS root) = none →
      five9_get_agent_states resp = .err "No columns found in response")
    ∧ (∀ resp root cn, resp.status = 200 → resp.xml = some root →
      findColumnsValues (stripNS root) = some cn →
      descAll (stripNS root) "rows" = [] →
      five9_get_agent_states resp = .ok []) := by
  constructor
  · intro resp root h200 hxml hcn
    simp [five9_get_agent_states, h200, hxml, hcn]
  · intro resp root cn h200 hxml hcn hrows
    simp [five9_get_agent_states, h200, hxml, hcn, hrows]

/-- Witness for C5: a rows-only document yields the schema error; a
columns-only document yields the empty success. -/
theorem c5_witness :
    five9_get_agent_states ⟨200, "", some docNoCols⟩ = .err "No columns found in response"
    ∧ five9_get_agent_states ⟨200, "", some docNoRows⟩ = .ok [] := by
  exact ⟨c5_no_columns_vs_no_rows.1 _ docNoCols rfl rfl rfl,
    c5_no_columns_vs_no_rows.2 _ docNoRows
      (.elem "values" none [.elem "data" (some "Username") []]) rfl rfl rfl rfl⟩

/-! ## C10 -/

/-- C10: zipping truncates to the shorter sequence, so a row with more
values than declared columns loses the excess silently — the record equals
the one built from the truncated values, and its keys are exactly the
declared column names. -/
theorem c10_excess_values_discarded :
    (∀ cols vals : List String, zipA cols vals = zipA cols (vals.take cols.length))
    ∧ (∀ cols vals : List String, cols.length ≤ vals.length →
      (zipA cols vals).map Prod.fst = cols) := by
  refine ⟨zipA_take, ?_⟩
  intro cols vals h
  rw [zipA_take cols vals, map_fst_zipA _ _ (by simp), List.length_take,
    Nat.min_eq_left h, List.take_length]

/-- Witness for C10 at a two-column, three-value row. -/
theorem c10_witness :
    zipA ["Username", "State"] ["alice", "Ready", "extra"]
      = zipA ["Username", "State"] ["alice", "Ready"]
    ∧ (zipA ["Username", "State"] ["alice", "Ready", "extra"]).map Prod.fst
      = ["Username", "State"] := by
  constructor
  · have h := c10_excess_values_discarded.1 ["Username", "State"] ["alice", "Ready", "extra"]
    rw [h]; rfl
  · exact c10_excess_values_discarded.2 ["Username", "State"] ["alice", "Ready", "extra"]
      (by simp)

/-! ## C8 -/

/-- C8: the purge request deletes exactly the rows strictly older than 48
hours before its wall-clock now — a row exactly 48 hours old is kept, a row
49 hours old is deleted, a row 47 hours old is kept. -/
theorem c8_purge_strict_boundary :
    (∀ now ts store, ts ∈ purgeDeleted store (purgeCutoff now) ↔
      ts ∈ store ∧ ts < now - 48 * 3600)
    ∧ (∀ now ts store, ts ∈ store → ts = now - 48 * 3600 →
      ts ∈ purgeKept store (purgeCutoff now) ∧ ts ∉ purgeDeleted store (purgeCutoff now))
    ∧ (∀ now ts store, ts ∈ store → ts = now - 49 * 3600 →
      ts ∈ purgeDeleted store (purgeCutoff now))
    ∧ (∀ now ts store, ts ∈ store → ts = now - 47 * 3600 →
      ts ∈ purgeKept store (purgeCutoff now)) := by
  have hd : ∀ (store : List Int) c ts, ts ∈ purgeDeleted store c ↔ ts ∈ store ∧ ts < c := by
    intro store c ts
    simp [purgeDeleted]
  have hk : ∀ (store : List Int) c ts, ts ∈ purgeKept store c ↔ ts ∈ store ∧ ¬ ts < c := by
    intro store c ts
    simp [purgeKept]
  refine ⟨?_, ?_, ?_, ?_⟩
  · intro now ts store
    rw [hd]
    simp only [purgeCutoff]
  · intro now ts store hmem hts
    constructor
    · rw [hk]
      refine ⟨hmem, ?_⟩
      simp only [purgeCutoff]
      omega
    · rw [hd]
      rintro ⟨-, hlt⟩
      simp only [purgeCutoff] at hlt
      omega
  · intro now ts store hmem hts
    rw [hd]
    refine ⟨hmem, ?_⟩
    simp only [purgeCutoff]
    omega
  · intro now ts store hmem hts
    rw [hk]
    refine ⟨hmem, ?_⟩
    simp only [purgeCutoff]
    omega

/-- Witness for C8 with rows aged 47h, 48h and 49h at `now = 0`. -/
theorem c8_witness :
    ((-(49 * 3600) : Int) ∈
      purgeDeleted [-(47 * 3600), -(48 * 3600), -(49 * 3600)] (purgeCutoff 0))
    ∧ ((-(48 * 3600) : Int) ∈
      purgeKept [-(47 * 3600), -(48 * 3600), -(49 * 3600)] (purgeCutoff 0))
    ∧ ((-(47 * 3600) : Int) ∈
      purgeKept [-(47 * 3600), -(48 * 3600), -(49 * 3600)] (purgeCutoff 0)) := by
  refine ⟨?_, ?_, ?_⟩
  · exact c8_purge_strict_boundary.2.2.1 0 _ _ (by decide) (by decide)
  · exact (c8_purge_strict_boundary.2.1 0 _ _ (by decide) (by decide)).1
  · exact c8_purge_strict_boundary.2.2.2 0 _ _ (by decide) (by decide)

/-! ## C9 -/

/-- C9: a non-success session-set status terminates the invocation at once
with the 500 session-error outcome, and the action trace shows no fetch, no
write and no purge were attempted. -/
theorem c9_session_failure_short_circuits (env : Env) (h : env.sessionStatus ≠ 200) :
    poll env = (.http500 "Failed to set Five9 session", [.sessionSet]) := by
  simp [poll, five9_set_session, h]

/-- Witness for C9 at a concrete environment with session status 503. -/
theorem c9_witness :
    poll { sampleEnv with sessionStatus := 503 }
      = (.http500 "Failed to set Five9 session", [.sessionSet]) :=
  c9_session_failure_short_circuits { sampleEnv with sessionStatus := 503 } (by decide)

/-! ## Lemmas about the projection loop -/

lemma rowOf_ok_ts {ts : String} {a : Agent} {r : Row} (h : rowOf ts a = .ok r) :
    r.snapshot_ts = ts := by
  simp only [rowOf] at h
  cases hn : normalize (dgetD a "State Since" "") FIVE9_TZ_OFFSET_HOURS with
  | error e =>
    rw [hn] at h
    simp at h
  | ok utc =>
    rw [hn] at h
    dsimp only at h
    simp only [Except.ok.injEq] at h
    subst h
    rfl

lemma buildRows_ts : ∀ (agents : List Agent) (ts : String) (rows : List Row),
    buildRows ts agents = .ok rows → ∀ r ∈ rows, r.snapshot_ts = ts
  | [], ts, rows => by
    intro h r hr
    simp only [buildRows, Except.ok.injEq] at h
    subst h
    simp at hr
  | a :: rest, ts, rows => by
    intro h r hr
    unfold buildRows at h
    by_cases hlo : isLoggedOutB a
    · rw [if_pos hlo] at h
      exact buildRows_ts rest ts rows h r hr
    · rw [if_neg hlo] at h
      cases hro : rowOf ts a with
      | error e =>
        rw [hro] at h
        simp at h
      | ok r0 =>
        rw [hro] at h
        dsimp only at h
        cases hbr : buildRows ts rest with
        | error e =>
          rw [hbr] at h
          simp at h
        | ok rs =>
          rw [hbr] at h
          dsimp only at h
          simp only [Except.ok.injEq] at h
          subst h
          rcases List.mem_cons.mp hr with h1 | h2
          · subst h1
            exact rowOf_ok_ts hro
          · exact buildRows_ts rest ts rs hbr r h2

lemma buildRows_length : ∀ (agents : List Agent) (ts : String) (rows : List Row),
    buildRows ts agents = .ok rows →
    rows.length + agents.countP isLoggedOutB = agents.length
  | [], ts, rows => by
    intro h
    simp only [buildRows, Except.ok.injEq] at h
    subst h
    simp
  | a :: rest, ts, rows => by
    intro h
    unfold buildRows at h
    by_cases hlo : isLoggedOutB a
    · rw [if_pos hlo] at h
      have ih := buildRows_length rest ts rows h
      simp [List.countP_cons, hlo]
      omega
    · rw [if_neg hlo] at h
      cases hro : rowOf ts a with
      | error e =>
        rw [hro] at h
        simp at h
      | ok r0 =>
        rw [hro] at h
        dsimp only at h
        cases hbr : buildRows ts rest with
        | error e =>
          rw [hbr] at h
          simp at h
        | ok rs =>
          rw [hbr] at h
          dsimp only at h
          simp only [Except.ok.injEq] at h
          subst h
          have ih := buildRows_length rest ts rs hbr
          simp [List.countP_cons, hlo]
          omega

lemma rowOf_no_since (ts : String) (a : Agent) (h : dgetD a "State Since" "" = "") :
    rowOf ts a = .ok
      { snapshot_ts := ts
        username := dgetD a "Username" ""
        full_name := dgetD a "Full Name" ""
        state := dgetD a "State" ""
        reason_code := dgetD a "Reason Code" ""
        state_since := ""
        state_since_utc := ""
        state_duration := dgetD a "State Duration" ""
        campaign_name := dgetD a "Campaign Name" ""
        call_type := dgetD a "Call Type" ""
        media_availability := dgetD a "Media Availability" "" } := by
  unfold rowOf
  rw [h]
  simp [normalize]

/-! ## C6 -/

/-- C6 counterexample: an input sequence of records on which the projection
produces no output row count at all — normalizing a present `State Since`
value of `9999-12-31 23:00:00` shifts past `datetime.max`, raising an
`OverflowError` that the `except ValueError` clause does not catch. -/
theorem c6_counterexample :
    buildRows "2024-06-01T12:00:00+00:00" [[("State Since", "9999-12-31 23:00:00")]]
      = .error overflowMsg := by decide

/-- C6 (amended): when the projection loop completes (no `State Since`
value shifts outside the `datetime` range), it skips exactly the records
whose `State` equals `Logged Out`, so the output row count is the input
count minus the excluded count; a record whose `State Since` is absent or
empty always projects successfully, with every absent field defaulted to
the empty string. -/
theorem c6_amended_projection :
    (∀ ts agents rows, buildRows ts agents = .ok rows →
      rows.length = agents.length - agents.countP isLoggedOutB)
    ∧ (∀ ts (a : Agent) rest, isLoggedOutB a = true →
      buildRows ts (a :: rest) = buildRows ts rest)
    ∧ (∀ ts a, dgetD a "State Since" "" = "" →
      rowOf ts a = .ok
        { snapshot_ts := ts
          username := dgetD a "Username" ""
          full_name := dgetD a "Full Name" ""
          state := dgetD a "State" ""
          reason_code := dgetD a "Reason Code" ""
          state_since := ""
          state_since_utc := ""
          state_duration := dgetD a "State Duration" ""
          campaign_name := dgetD a "Campaign Name" ""
          call_type := dgetD a "Call Type" ""
          media_availability := dgetD a "Media Availability" "" })
    ∧ (∀ (a : Agent) k d, agetOpt a k = none → dgetD a k d = d) := by
  refine ⟨?_, ?_, rowOf_no_since, ?_⟩
  · intro ts agents rows h
    have := buildRows_length agents ts rows h
    omega
  · intro ts a rest h
    simp [buildRows, h]
  · intro a k d h
    simp [dgetD, h]

/-- Witness for C6: on two records, one logged out, the projection outputs
one row — input count minus excluded count. -/
theorem c6_witness :
    ([aliceRow] : List Row).length
      = sampleAgents.length - sampleAgents.countP isLoggedOutB :=
  c6_amended_projection.1 "2024-06-01T12:00:00+00:00" sampleAgents [aliceRow] (by decide)

/-! ## C7 -/

lemma write_acts_inv {ws : Nat} {wb : String} {agents : List Agent} {ts : String}
    {res : Nat × Option String} {acts : List Action} {rows : List Row}
    (h : write_to_supabase ws wb agents ts = .ok (res, acts))
    (hm : Action.write rows ∈ acts) : buildRows ts agents = .ok rows := by
  unfold write_to_supabase at h
  cases hbr : buildRows ts agents with
  | error e =>
    rw [hbr] at h
    simp at h
  | ok rows0 =>
    rw [hbr] at h
    dsimp only at h
    by_cases he : rows0.isEmpty
    · rw [if_pos he] at h
      simp only [Except.ok.injEq, Prod.mk.injEq] at h
      rcases h with ⟨-, hacts⟩
      subst hacts
      simp at hm
    · rw [if_neg he] at h
      split at h <;>
      · simp only [Except.ok.injEq, Prod.mk.injEq] at h
        rcases h with ⟨-, hacts⟩
        subst hacts
        simp only [List.mem_singleton, Action.write.injEq] at hm
        subst hm
        rfl

lemma poll_write_ts (env : Env) (out : Outcome) (acts : List Action) (rows : List Row)
    (h : poll env = (out, acts)) (hm : Action.write rows ∈ acts) :
    ∀ r ∈ rows, r.snapshot_ts = env.snapshot_ts := by
  unfold poll at h
  by_cases hs : five9_set_session env = true
  · rw [if_neg (by simp [hs])] at h
    cases hf : five9_get_agent_states env.statsResp with
    | raised e =>
      rw [hf] at h
      simp only [Prod.mk.injEq] at h
      rcases h with ⟨-, hacts⟩
      subst hacts
      simp at hm
    | err e =>
      rw [hf] at h
      simp only [Prod.mk.injEq] at h
      rcases h with ⟨-, hacts⟩
      subst hacts
      simp at hm
    | ok agents =>
      rw [hf] at h
      dsimp only at h
      cases hw : write_to_supabase env.writeStatus env.writeBody agents env.snapshot_ts with
      | error e =>
        rw [hw] at h
        dsimp only at h
        simp only [Prod.mk.injEq] at h
        rcases h with ⟨-, hacts⟩
        subst hacts
        simp at hm
      | ok pr =>
        obtain ⟨⟨cnt, eopt⟩, acts'⟩ := pr
        cases eopt with
        | some e =>
          rw [hw] at h
          dsimp only at h
          simp only [Prod.mk.injEq] at h
          rcases h with ⟨-, hacts⟩
          subst hacts
          rcases List.mem_append.mp hm with hm' | hm'
          · simp at hm'
          · exact buildRows_ts agents env.snapshot_ts rows (write_acts_inv hw hm')
        | none =>
          rw [hw] at h
          dsimp only at h
          simp only [Prod.mk.injEq] at h
          rcases h with ⟨-, hacts⟩
          subst hacts
          rcases List.mem_append.mp hm with hm' | hm'
          · rcases List.mem_append.mp hm' with hm2 | hm2
            · simp at hm2
            · exact buildRows_ts agents env.snapshot_ts rows (write_acts_inv hw hm2)
          · simp at hm'
  · rw [if_pos (by simpa using hs)] at h
    simp only [Prod.mk.injEq] at h
    rcases h with ⟨-, hacts⟩
    subst hacts
    simp at hm

/-- C7: every row of a completed projection carries the snapshot timestamp
passed in, and every row batch a poll invocation sends to the store carries
that invocation's single captured `snapshot_ts`. -/
theorem c7_snapshot_ts_uniform :
    (∀ ts agents rows, buildRows ts agents = .ok rows → ∀ r ∈ rows, r.snapshot_ts = ts)
    ∧ (∀ env out acts rows, poll env = (out, acts) → Action.write rows ∈ acts →
      ∀ r ∈ rows, r.snapshot_ts = env.snapshot_ts) :=
  ⟨fun ts agents rows h => buildRows_ts agents ts rows h,
   fun env out acts rows h hm => poll_write_ts env out acts rows h hm⟩

/-- Witness for C7 at `sampleEnv`: the row written by the sample poll
carries the poll's captured timestamp. -/
theorem c7_witness : aliceRow.snapshot_ts = sampleEnv.snapshot_ts :=
  c7_snapshot_ts_uniform.2 sampleEnv
    (.success 2 1 0 "2024-06-01T12:00:00+00:00")
    [.sessionSet, .fetch, .write [aliceRow], .purge 1717070400]
    [aliceRow] (by decide) (by decide) aliceRow (by decide)

/-! ## C1 -/

/-- C1 counterexample: with session, fetch and write succeeding and the
retention delete failing with 503, the outcome is the ok=true payload with
purged 0 — and it is *identical* to the outcome under a completely
different delete failure, so no purge error is attached to the outcome. -/
theorem c1_counterexample :
    poll sampleEnv
      = (.success 2 1 0 "2024-06-01T12:00:00+00:00",
         [.sessionSet, .fetch, .write [aliceRow], .purge 1717070400])
    ∧ poll sampleEnv
      = poll { sampleEnv with delStatus := 404, delCount := 3, delText := "not found" } := by
  constructor
  · decide
  · decide

/-- C1 (amended): a failed retention delete leaves the invocation
successful — the outcome is the ok=true payload with purged reported 0 —
but the purge error is silently discarded, not attached: the outcome does
not depend on the delete failure's body or count. -/
theorem c1_amended_purge_nonfatal :
    (∀ (env : Env) agents count acts, env.sessionStatus = 200 →
      five9_get_agent_states env.statsResp = .ok agents →
      write_to_supabase env.writeStatus env.writeBody agents env.snapshot_ts
        = .ok ((count, none), acts) →
      env.delStatus ≠ 200 →
      poll env = (.success agents.length count 0 env.snapshot_ts,
        ([.sessionSet, .fetch] ++ acts) ++ [.purge (purgeCutoff env.purgeNow)]))
    ∧ (∀ (env : Env) (t1 t2 : String) (n1 n2 : Nat),
      env.delStatus ≠ 200 →
      poll { env with delText := t1, delCount := n1 }
        = poll { env with delText := t2, delCount := n2 }) := by
  constructor
  · intro env agents count acts hs hf hw hd
    have hif : (env.delStatus == 200) = false := by simp [hd]
    unfold poll
    rw [if_neg (by simp [five9_set_session, hs])]
    rw [hf]
    dsimp only
    rw [hw]
    dsimp only
    rw [hif]
    rfl
  · intro env t1 t2 n1 n2 hd
    have hif : (env.delStatus == 200) = false := by simp [hd]
    simp only [poll, five9_set_session]
    simp [hif]

/-- Witness for C1 (amended) at `sampleEnv`. -/
theorem c1_witness :
    poll sampleEnv
      = (.success 2 1 0 sampleEnv.snapshot_ts,
        ([.sessionSet, .fetch] ++ [.write [aliceRow]])
          ++ [.purge (purgeCutoff sampleEnv.purgeNow)]) :=
  c1_amended_purge_nonfatal.1 sampleEnv
    [[("Username", "alice"), ("State", "Ready")],
     [("Username", "bob"), ("State", "Logged Out")]]
    1 [.write [aliceRow]] rfl (by decide) (by decide) (by decide)

/-! ## C2 -/

/-- C2 counterexample: a 200-status response whose body is not well-formed
XML makes the invocation end in an uncaught `ParseError` exception — not in
a structured ok=false outcome carrying the error. -/
theorem c2_counterexample :
    poll envBadXml = (.raised parseErrorMsg, [.sessionSet, .fetch]) := by decide

/-- C2 (amended): a malformed response body makes `ET.fromstring` raise
`ParseError`, which does short-circuit the pipeline (no write and no purge
are attempted) but propagates out of the handler as an unhandled exception
instead of being surfaced in the structured poll outcome. -/
theorem c2_amended_parse_error_raises (env : Env) (hs : env.sessionStatus = 200)
    (h200 : env.statsResp.status = 200) (hxml : env.statsResp.xml = none) :
    poll env = (.raised parseErrorMsg, [.sessionSet, .fetch]) := by
  unfold poll
  rw [if_neg (by simp [five9_set_session, hs])]
  have hf : five9_get_agent_states env.statsResp = .raised parseErrorMsg := by
    unfold five9_get_agent_states
    rw [if_neg (by simp [h200]), hxml]
  rw [hf]

/-- Witness for C2 (amended) at a concrete malformed-body environment. -/
theorem c2_witness :
    poll { envBadXml with snapshot_ts := "2024-06-02T00:00:00+00:00" }
      = (.raised parseErrorMsg, [.sessionSet, .fetch]) :=
  c2_amended_parse_error_raises _ rfl rfl rfl

/-! ## C3: digit and format-parser lemmas -/

lemma digc_isDigit {n : Nat} (h : n ≤ 9) : (digc n).isDigit = true := by
  interval_cases n <;> decide

lemma digitVal_digc {n : Nat} (h : n ≤ 9) : digitVal (digc n) = n := by
  interval_cases n <;> decide

lemma digc_not_space {n : Nat} (h : n ≤ 9) : isSpaceChar (digc n) = false := by
  interval_cases n <;> decide

lemma parseYear_pad4 {y : Nat} (hy : y ≤ 9999) (r : List Char) :
    parseYear (pad4c y ++ r) = some (y, r) := by
  have h1 : y / 1000 ≤ 9 := by omega
  have h2 : y / 100 % 10 ≤ 9 := by omega
  have h3 : y / 10 % 10 ≤ 9 := by omega
  have h4 : y % 10 ≤ 9 := by omega
  simp only [pad4c, List.cons_append, List.nil_append, parseYear,
    digc_isDigit h1, digc_isDigit h2, digc_isDigit h3, digc_isDigit h4]
  rw [if_pos (by simp)]
  simp only [digitVal_digc h1, digitVal_digc h2, digitVal_digc h3, digitVal_digc h4,
    Option.some.injEq, Prod.mk.injEq, eq_self_iff_true, and_true]
  omega

lemma expectChar_cons (c : Char) (r : List Char) : expectChar c (c :: r) = some r := by
  simp [expectChar]

lemma parseMonth_pad2 {m : Nat} (h1 : 1 ≤ m) (h2 : m ≤ 12) (r : List Char) :
    parseMonth (pad2c m ++ r) = some (m, r) := by
  interval_cases m <;> rfl

lemma parseDay_pad2 {d : Nat} (h1 : 1 ≤ d) (h2 : d ≤ 31) (r : List Char) :
    parseDay (pad2c d ++ r) = some (d, r) := by
  interval_cases d <;> rfl

lemma parseHour_pad2 {h : Nat} (h2 : h ≤ 23) (r : List Char) :
    parseHour (pad2c h ++ r) = some (h, r) := by
  interval_cases h <;> rfl

lemma parseMin_pad2 {v : Nat} (h2 : v ≤ 59) (r : List Char) :
    parseMin (pad2c v ++ r) = some (v, r) := by
  interval_cases v <;> rfl

lemma parseSec_pad2 {v : Nat} (h2 : v ≤ 59) (r : List Char) :
    parseSec (pad2c v ++ r) = some (v, r) := by
  interval_cases v <;> rfl

lemma parseWs_pad2 {n : Nat} (h : n ≤ 99) (r : List Char) :
    parseWs (' ' :: (pad2c n ++ r)) = some (pad2c n ++ r) := by
  have h1 : n / 10 ≤ 9 := by omega
  have hsp : isSpaceChar ' ' = true := by decide
  simp [parseWs, pad2c, List.dropWhile_cons, digc_not_space h1, hsp]

lemma dtValid_def (t : Dt) : dtValid t ↔
    (1 ≤ t.year ∧ t.year ≤ 9999 ∧ 1 ≤ t.month ∧ t.month ≤ 12 ∧
     1 ≤ t.day ∧ t.day ≤ daysInMonth t.year t.month ∧
     t.hour ≤ 23 ∧ t.minute ≤ 59 ∧ t.second ≤ 59) := Iff.rfl

lemma daysInMonth_le_31 (y m : Nat) : daysInMonth y m ≤ 31 := by
  have hl : leapDay y ≤ 1 := by
    unfold leapDay
    split <;> omega
  unfold daysInMonth
  split <;> omega

/-- A canonically formatted valid datetime parses back to itself: the
lenient matcher accepts the zero-padded four-digit form exactly. -/
lemma strptime_canonicalFmt (t : Dt) (hv : dtValid t) :
    strptimeYmdHMS (canonicalFmt t) = some t := by
  obtain ⟨h1, h2, h3, h4, h5, h6, h7, h8, h9⟩ := (dtValid_def t).mp hv
  have hd31 : t.day ≤ 31 := le_trans h6 (daysInMonth_le_31 t.year t.month)
  have hfmt : (canonicalFmt t).data
      = pad4c t.year ++ ('-' :: (pad2c t.month
        ++ ('-' :: (pad2c t.day ++ (' ' :: (pad2c t.hour
        ++ (':' :: (pad2c t.minute ++ (':' :: (pad2c t.second ++ [])))))))))) := by
    simp [canonicalFmt, fmtChars]
  unfold strptimeYmdHMS
  rw [hfmt]
  simp only [parseYear_pad4 h2, expectChar_cons, parseMonth_pad2 h3 h4,
    parseDay_pad2 h5 hd31, parseWs_pad2 (show t.hour ≤ 99 by omega),
    parseHour_pad2 h7, parseMin_pad2 h8, parseSec_pad2 h9,
    Option.bind_eq_bind, Option.some_bind]
  have hvv : dtValid (⟨t.year, t.month, t.day, t.hour, t.minute, t.second⟩ : Dt) :=
    (dtValid_def _).mpr ⟨h1, h2, h3, h4, h5, h6, h7, h8, h9⟩
  simp only [hvv, and_true, true_and, eq_self_iff_true, if_true]

/-! ## C3: calendar arithmetic -/

lemma leapDay_le_one (y : Nat) : leapDay y ≤ 1 := by
  unfold leapDay
  split <;> omega

lemma dby_arith_leap {y : Nat} (h : 1 ≤ y)
    (hl : (y % 4 = 0 ∧ ¬ y % 100 = 0) ∨ y % 400 = 0) :
    365 * y + y / 4 + y / 400 - y / 100
      = 365 * (y - 1) + (y - 1) / 4 + (y - 1) / 400 - (y - 1) / 100 + 365 + 1 := by
  have d4 : y % 4 = 0 → y / 4 = (y - 1) / 4 + 1 := by omega
  have d4' : ¬ y % 4 = 0 → y / 4 = (y - 1) / 4 := by omega
  have d100 : y % 100 = 0 → y / 100 = (y - 1) / 100 + 1 := by omega
  have d100' : ¬ y % 100 = 0 → y / 100 = (y - 1) / 100 := by omega
  have d400 : y % 400 = 0 → y / 400 = (y - 1) / 400 + 1 := by omega
  have d400' : ¬ y % 400 = 0 → y / 400 = (y - 1) / 400 := by omega
  omega

lemma dby_arith_nonleap {y : Nat} (h : 1 ≤ y)
    (hl : ¬ ((y % 4 = 0 ∧ ¬ y % 100 = 0) ∨ y % 400 = 0)) :
    365 * y + y / 4 + y / 400 - y / 100
      = 365 * (y - 1) + (y - 1) / 4 + (y - 1) / 400 - (y - 1) / 100 + 365 := by
  have d4 : y % 4 = 0 → y / 4 = (y - 1) / 4 + 1 := by omega
  have d4' : ¬ y % 4 = 0 → y / 4 = (y - 1) / 4 := by omega
  have d100 : y % 100 = 0 → y / 100 = (y - 1) / 100 + 1 := by omega
  have d100' : ¬ y % 100 = 0 → y / 100 = (y - 1) / 100 := by omega
  have d400 : y % 400 = 0 → y / 400 = (y - 1) / 400 + 1 := by omega
  have d400' : ¬ y % 400 = 0 → y / 400 = (y - 1) / 400 := by omega
  omega

lemma daysBeforeYear_succ {y : Nat} (h : 1 ≤ y) :
    daysBeforeYear (y + 1) = daysBeforeYear y + 365 + leapDay y := by
  by_cases hl : isLeap y
  · have hv1 : leapDay y = 1 := by
      unfold leapDay
      exact if_pos hl
    unfold isLeap at hl
    unfold daysBeforeYear
    rw [hv1, Nat.add_sub_cancel]
    exact dby_arith_leap h hl
  · have hv0 : leapDay y = 0 := by
      unfold leapDay
      exact if_neg hl
    unfold isLeap at hl
    unfold daysBeforeYear
    rw [hv0, Nat.add_sub_cancel]
    exact dby_arith_nonleap h hl

lemma daysBeforeMonth_succ {y m : Nat} (h1 : 1 ≤ m) (h2 : m ≤ 12) :
    daysBeforeMonth y (m + 1) = daysBeforeMonth y m + daysInMonth y m := by
  interval_cases m <;> simp [daysBeforeMonth, daysInMonth] <;> omega

lemma daysBeforeYear_mono {a b : Nat} (h : a ≤ b) :
    daysBeforeYear a ≤ daysBeforeYear b := by
  have h4 : (a - 1) / 4 ≤ (b - 1) / 4 := by omega
  have h400 : (a - 1) / 400 ≤ (b - 1) / 400 := by omega
  have h100 : (b - 1) / 100 ≤ (a - 1) / 100 + (b - a) := by omega
  unfold daysBeforeYear
  omega

lemma daysBeforeMonth_add_le (y m : Nat) (h1 : 1 ≤ m) (h2 : m ≤ 12) :
    daysBeforeMonth y m + daysInMonth y m ≤ 365 + leapDay y := by
  interval_cases m <;> simp [daysBeforeMonth, daysInMonth] <;> omega

lemma findYearC_spec (days : Nat) :
    ∀ k, 1 ≤ k →
      (∃ c, c < k ∧ findYearC days k = 100 * c + 1) ∧
      daysBeforeYear (findYearC days k) ≤ days ∧
      ∀ c, c < k → daysBeforeYear (100 * c + 1) ≤ days → 100 * c + 1 ≤ findYearC days k := by
  intro k
  induction k with
  | zero => omega
  | succ n ih =>
    intro _
    unfold findYearC
    by_cases hc : daysBeforeYear (100 * n + 1) ≤ days
    · rw [if_pos hc]
      exact ⟨⟨n, by omega, rfl⟩, hc, fun c hcl hcd => by
        have := daysBeforeYear_mono (show 100 * c + 1 ≤ 100 * n + 1 by omega)
        omega⟩
    · rw [if_neg hc]
      rcases Nat.eq_zero_or_pos n with hn | hn
      · subst hn
        exact absurd (show daysBeforeYear (100 * 0 + 1) ≤ days by
          have hz : daysBeforeYear (100 * 0 + 1) = 0 := rfl
          omega) hc
      · obtain ⟨ih1, ih2, ih3⟩ := ih hn
        refine ⟨?_, ih2, ?_⟩
        · obtain ⟨c, hcl, hcv⟩ := ih1
          exact ⟨c, by omega, hcv⟩
        · intro c hcl hcd
          rcases Nat.lt_or_ge c n with h' | h'
          · exact ih3 c h' hcd
          · have hceq : c = n := by omega
            subst hceq
            exact absurd hcd hc

lemma findYearF_spec (days base : Nat) (hbase : daysBeforeYear base ≤ days) :
    ∀ k,
      base ≤ findYearF days base k ∧ findYearF days base k ≤ base + k ∧
      daysBeforeYear (findYearF days base k) ≤ days ∧
      ∀ y, y ≤ base + k → daysBeforeYear y ≤ days → y ≤ findYearF days base k := by
  intro k
  induction k with
  | zero =>
    have h0 : findYearF days base 0 = base := rfl
    rw [h0]
    exact ⟨le_refl _, by omega, hbase, fun y hy _ => by omega⟩
  | succ n ih =>
    unfold findYearF
    by_cases hc : daysBeforeYear (base + (n + 1)) ≤ days
    · rw [if_pos hc]
      exact ⟨by omega, le_refl _, hc, fun y hy _ => hy⟩
    · rw [if_neg hc]
      obtain ⟨ih1, ih2, ih3, ih4⟩ := ih
      refine ⟨ih1, by omega, ih3, ?_⟩
      intro y hy hyd
      rcases Nat.lt_or_ge y (base + (n + 1)) with h' | h'
      · exact ih4 y (by omega) hyd
      · have hyeq : y = base + (n + 1) := by omega
        subst hyeq
        exact absurd hyd hc

/-- `findYear` returns the largest year (within 1-9999) whose cumulative
day count does not exceed `days`, for any in-range day count. -/
lemma findYear_spec (days : Nat) (hd : days < 3652059) :
    1 ≤ findYear days ∧ findYear days ≤ 9999 ∧
    daysBeforeYear (findYear days) ≤ days ∧
    ∀ y, y ≤ 9999 → daysBeforeYear y ≤ days → y ≤ findYear days := by
  obtain ⟨⟨c, hc, hcv⟩, hb2, hb3⟩ := findYearC_spec days 100 (by omega)
  obtain ⟨hf1, hf2, hf3, hf4⟩ := findYearF_spec days (findYearC days 100) hb2 99
  have hfy : findYear days = findYearF days (findYearC days 100) 99 := rfl
  rw [hfy]
  have h10 : daysBeforeYear 10000 = 3652059 := by decide
  refine ⟨by omega, ?_, hf3, ?_⟩
  · rcases Nat.lt_or_ge (findYearF days (findYearC days 100) 99) 10000 with h' | h'
    · omega
    · exfalso
      have := daysBeforeYear_mono (show 10000 ≤ findYearF days (findYearC days 100) 99 by omega)
      omega
  · intro y hy hyd
    rcases Nat.lt_or_ge y (findYearC days 100) with h' | h'
    · omega
    · have hdivle : 100 * ((y - 1) / 100) + 1 ≤ y := by omega
      have hcy : 100 * ((y - 1) / 100) + 1 ≤ findYearC days 100 := by
        apply hb3
        · omega
        · exact le_trans (daysBeforeYear_mono hdivle) hyd
      have hyle : y ≤ findYearC days 100 + 99 := by omega
      exact hf4 y hyle hyd

lemma findMonthAux_spec (y doy : Nat) :
    ∀ k, 1 ≤ k →
      1 ≤ findMonthAux y doy k ∧ findMonthAux y doy k ≤ k ∧
      daysBeforeMonth y (findMonthAux y doy k) ≤ doy ∧
      ∀ m, m ≤ k → daysBeforeMonth y m ≤ doy → m ≤ findMonthAux y doy k := by
  intro k
  induction k with
  | zero => omega
  | succ n ih =>
    intro _
    unfold findMonthAux
    by_cases hc : daysBeforeMonth y (n + 1) ≤ doy
    · rw [if_pos hc]
      exact ⟨by omega, le_refl _, hc, fun m hm _ => hm⟩
    · rw [if_neg hc]
      rcases Nat.eq_zero_or_pos n with hn | hn
      · subst hn
        exact absurd (show daysBeforeMonth y 1 ≤ doy by
          have hz : daysBeforeMonth y 1 = 0 := rfl
          omega) hc
      · obtain ⟨ih1, ih2, ih3, ih4⟩ := ih hn
        refine ⟨ih1, by omega, ih3, ?_⟩
        intro m hm hmd
        rcases Nat.lt_or_ge m (n + 1) with h' | h'
        · exact ih4 m (by omega) hmd
        · have hm' : m = n + 1 := by omega
          subst hm'
          exact absurd hmd hc

/-- `fromSecs` is a right inverse of `toSecs` on the representable range:
the reconstructed civil datetime is valid and re-encodes to the same second
count. -/
lemma fromSecs_section {n : Nat} (hn : n ≤ maxSecs) :
    dtValid (fromSecs n) ∧ toSecs (fromSecs n) = n := by
  have hmax : maxSecs + 1 = 3652059 * 86400 := by decide
  have hdB10000 : daysBeforeYear 10000 = 3652059 := by decide
  set days := n / 86400 with hdays
  set rem := n % 86400 with hrem
  have hdays_lt0 : n / 86400 < 3652059 := by omega
  set y := findYear days with hy
  set doy := days - daysBeforeYear y with hdoy
  set m := findMonthAux y doy 12 with hm
  set dom := doy - daysBeforeMonth y m with hdom
  have hfrom : fromSecs n = ⟨y, m, dom + 1, rem / 3600, rem % 3600 / 60, rem % 60⟩ := rfl
  obtain ⟨hy1, hy2, hy3, hy4⟩ := findYear_spec days hdays_lt0
  rw [← hy] at hy1 hy2 hy3 hy4
  obtain ⟨hm1, hm2, hm3, hm4⟩ := findMonthAux_spec y doy 12 (by omega)
  rw [← hm] at hm1 hm2 hm3 hm4
  have hdays_lt : days < 3652059 := hdays_lt0
  have hupper : days < daysBeforeYear (y + 1) := by
    rcases Nat.lt_or_ge y 9999 with h' | h'
    · by_contra hcon
      push_neg at hcon
      have := hy4 (y + 1) (by omega) hcon
      omega
    · have hyeq : y = 9999 := by omega
      have h10 : daysBeforeYear (9999 + 1) = 3652059 := hdB10000
      rw [hyeq, h10]
      omega
  have hstep : daysBeforeYear (y + 1) = daysBeforeYear y + 365 + leapDay y :=
    daysBeforeYear_succ hy1
  have hdoy_lt : doy < 365 + leapDay y := by omega
  have hm13 : daysBeforeMonth y 13 = 365 + leapDay y := rfl
  have hmupper : doy < daysBeforeMonth y (m + 1) := by
    rcases Nat.lt_or_ge m 12 with h' | h'
    · by_contra hcon
      push_neg at hcon
      have := hm4 (m + 1) (by omega) hcon
      omega
    · have hmeq : m = 12 := by omega
      have h13 : daysBeforeMonth y (12 + 1) = 365 + leapDay y := hm13
      rw [hmeq, h13]
      omega
  have hmstep : daysBeforeMonth y (m + 1) = daysBeforeMonth y m + daysInMonth y m :=
    daysBeforeMonth_succ hm1 hm2
  have hdom_lt : dom < daysInMonth y m := by omega
  clear_value dom m doy y rem days
  constructor
  · rw [hfrom, dtValid_def]
    dsimp only
    exact ⟨hy1, hy2, hm1, hm2, by omega, by omega, by omega, by omega, by omega⟩
  · rw [hfrom]
    unfold toSecs
    dsimp only
    omega

/-- Any second count at or above `lowSecs` belongs to a year ≥ 1000, where
`%Y` zero-padding questions disappear. -/
lemma year_ge_1000_of_lowSecs {t : Dt} (hv : dtValid t) (h : lowSecs ≤ toSecs t) :
    1000 ≤ t.year := by
  by_contra hcon
  push_neg at hcon
  obtain ⟨h1, h2, h3, h4, h5, h6, h7, h8, h9⟩ := (dtValid_def t).mp hv
  have hml := daysBeforeMonth_add_le t.year t.month h3 h4
  have hstep : daysBeforeYear (t.year + 1) = daysBeforeYear t.year + 365 + leapDay t.year :=
    daysBeforeYear_succ h1
  have hmono : daysBeforeYear (t.year + 1) ≤ daysBeforeYear 1000 :=
    daysBeforeYear_mono (by omega)
  have hd1000 : daysBeforeYear 1000 = 364877 := by decide
  have hlowv : lowSecs = 364877 * 86400 := by decide
  have htos : toSecs t
      = ((daysBeforeYear t.year + daysBeforeMonth t.year t.month + (t.day - 1)) * 24
          + t.hour) * 3600 + t.minute * 60 + t.second := rfl
  omega

lemma strftime_eq_canonicalFmt {t : Dt} (h : 1000 ≤ t.year) :
    strftimeYmdHMS t = canonicalFmt t := by
  unfold strftimeYmdHMS canonicalFmt yearChars
  rw [if_pos h]

lemma canonicalFmt_ne_empty (t : Dt) : canonicalFmt t ≠ "" := by
  intro h
  have hd := congrArg String.data h
  simp [canonicalFmt, fmtChars, pad4c] at hd

/-- The canonical format of a valid datetime is lexically of the
`YYYY-MM-DD HH:MM:SS` shape. -/
lemma isCanonicalTs_canonicalFmt {t : Dt} (hv : dtValid t) :
    isCanonicalTs (canonicalFmt t) = true := by
  obtain ⟨h1, h2, h3, h4, h5, h6, h7, h8, h9⟩ := (dtValid_def t).mp hv
  have hd31 : t.day ≤ 31 := le_trans h6 (daysInMonth_le_31 t.year t.month)
  simp only [isCanonicalTs, canonicalFmt, fmtChars, pad4c, pad2c,
    List.cons_append, List.nil_append]
  simp [digc_isDigit (show t.year / 1000 ≤ 9 by omega),
    digc_isDigit (show t.year / 100 % 10 ≤ 9 by omega),
    digc_isDigit (show t.year / 10 % 10 ≤ 9 by omega),
    digc_isDigit (show t.year % 10 ≤ 9 by omega),
    digc_isDigit (show t.month / 10 ≤ 9 by omega),
    digc_isDigit (show t.month % 10 ≤ 9 by omega),
    digc_isDigit (show t.day / 10 ≤ 9 by omega),
    digc_isDigit (show t.day % 10 ≤ 9 by omega),
    digc_isDigit (show t.hour / 10 ≤ 9 by omega),
    digc_isDigit (show t.hour % 10 ≤ 9 by omega),
    digc_isDigit (show t.minute / 10 ≤ 9 by omega),
    digc_isDigit (show t.minute % 10 ≤ 9 by omega),
    digc_isDigit (show t.second / 10 ≤ 9 by omega),
    digc_isDigit (show t.second % 10 ≤ 9 by omega)]

/-! ## C3 -/

set_option maxRecDepth 40000 in
/-- C3 counterexample: the code's normalizer is not the claimed function.
First, `strptime` is lenient: `"2024-1-15 10:00:00"` is not in the
`YYYY-MM-DD HH:MM:SS` form, yet it is parsed and rewritten (not returned
unchanged).  Second, on the in-form input `"9999-12-31 23:00:00"` with
offset −8 the shift leaves the `datetime` range and the code raises an
uncaught `OverflowError` instead of returning a string. -/
theorem c3_counterexample :
    isCanonicalTs "2024-1-15 10:00:00" = false
    ∧ normalize "2024-1-15 10:00:00" (-8) = .ok "2024-01-15 18:00:00"
    ∧ isCanonicalTs "9999-12-31 23:00:00" = true
    ∧ normalize "9999-12-31 23:00:00" (-8) = .error overflowMsg := by
  refine ⟨by decide, by decide, by decide, by decide⟩

/-- C3 (amended): on a valid `YYYY-MM-DD HH:MM:SS` input whose shift by
`-o` hours stays within years 1000-9999, `normalize` returns exactly the
same-form rendering of the datetime whose absolute second count is the
input's minus `3600·o` — a pure function of the two inputs; the empty
input yields the empty string; an input the format matcher rejects is
returned unchanged.  (Leniently matched non-canonical inputs are
normalized, not preserved, and shifts leaving the `datetime` range raise —
the counterexample shows both.) -/
theorem c3_amended_normalize :
    (∀ (t : Dt) (o : Int), dtValid t →
      (lowSecs : Int) ≤ (toSecs t : Int) - 3600 * o →
      (toSecs t : Int) - 3600 * o ≤ (maxSecs : Int) →
      dtValid (fromSecs ((toSecs t : Int) - 3600 * o).toNat)
      ∧ 1000 ≤ (fromSecs ((toSecs t : Int) - 3600 * o).toNat).year
      ∧ (toSecs (fromSecs ((toSecs t : Int) - 3600 * o).toNat) : Int)
          = (toSecs t : Int) - 3600 * o
      ∧ normalize (canonicalFmt t) o
          = .ok (canonicalFmt (fromSecs ((toSecs t : Int) - 3600 * o).toNat))
      ∧ isCanonicalTs (canonicalFmt (fromSecs ((toSecs t : Int) - 3600 * o).toNat)) = true)
    ∧ (∀ o : Int, normalize "" o = .ok "")
    ∧ (∀ (s : String) (o : Int), s ≠ "" → strptimeYmdHMS s = none →
      normalize s o = .ok s) := by
  refine ⟨?_, fun o => rfl, ?_⟩
  · intro t o hv hlo hhi
    have h0 : (0 : Int) ≤ (toSecs t : Int) - 3600 * o := by
      have : (0 : Int) ≤ (lowSecs : Int) := by positivity
      omega
    have hle : ((toSecs t : Int) - 3600 * o).toNat ≤ maxSecs := by omega
    obtain ⟨hvalid, htos⟩ := fromSecs_section hle
    have hcast : (toSecs (fromSecs ((toSecs t : Int) - 3600 * o).toNat) : Int)
        = (toSecs t : Int) - 3600 * o := by omega
    have hlow_le : lowSecs ≤ toSecs (fromSecs ((toSecs t : Int) - 3600 * o).toNat) := by
      omega
    have hy1000 := year_ge_1000_of_lowSecs hvalid hlow_le
    refine ⟨hvalid, hy1000, hcast, ?_, isCanonicalTs_canonicalFmt hvalid⟩
    unfold normalize
    rw [if_neg (canonicalFmt_ne_empty t)]
    rw [strptime_canonicalFmt t hv]
    dsimp only
    rw [if_pos ⟨h0, hhi⟩]
    rw [strftime_eq_canonicalFmt hy1000]
  · intro s o hne hparse
    unfold normalize
    rw [if_neg hne, hparse]

set_option maxRecDepth 40000 in
/-- Witness for C3 at the spec's own example: shifting
`2024-01-15 10:00:00` by offset −8 gives `2024-01-15 18:00:00`. -/
theorem c3_witness :
    normalize (canonicalFmt ⟨2024, 1, 15, 10, 0, 0⟩) (-8)
      = .ok (canonicalFmt (fromSecs
          ((toSecs ⟨2024, 1, 15, 10, 0, 0⟩ : Int) - 3600 * (-8)).toNat))
    ∧ normalize "2024-01-15 10:00:00" (-8) = .ok "2024-01-15 18:00:00"
    ∧ normalize "not a timestamp" (-8) = .ok "not a timestamp" := by
  refine ⟨?_, by decide, ?_⟩
  · exact (c3_amended_normalize.1 ⟨2024, 1, 15, 10, 0, 0⟩ (-8) (by decide)
      (by decide) (by decide)).2.2.2.1
  · exact c3_amended_normalize.2.2 "not a timestamp" (-8) (by decide) (by decide)

end Five9Poller
